import Mathlib

/-!
Verification of the Interactive Board Controller of the melg-chess GUI
(src/chess-gui/src/main.rs) against its specification.

The GUI drives an external rules engine (the eliasfl_chess crate): the
engine is modelled abstractly as a structure of operations over an opaque
game value whose public fields (board, active_color, promotion) the GUI
reads and writes directly, exactly as the Rust code does.  Clock values are
f32 seconds in the source; they are embedded as exact rationals, keeping
the source's comparisons and flooring.  Rust panics (the .unwrap() calls
that can fail) are modelled by returning none from the handler.

Positions cross the engine boundary as algebraic strings in the source
(to_string / from_string); the specification requires this conversion to be
a lossless round trip, so the embedding passes Position values directly.
-/

namespace ChessGui

/-- Side colour, mirroring eliasfl_chess::Color (aliased Colour in main.rs). -/
inductive Colour
| white
| black
deriving DecidableEq

/-- The Not operator on colours used by the source as !active_color. -/
def colourNot : Colour → Colour
| .white => .black
| .black => .white

/-- Piece kinds, each parameterised by a side, mirroring eliasfl_chess::Piece. -/
inductive PieceType
| king (c : Colour)
| queen (c : Colour)
| rook (c : Colour)
| bishop (c : Colour)
| knight (c : Colour)
| pawn (c : Colour)
deriving DecidableEq

/-- Engine-reported game status, mirroring eliasfl_chess::GameState. -/
inductive GameState
| inProgress
| check
| checkMate
| staleMate
deriving DecidableEq

/-- Board coordinate with file and rank stored as u8 values (main.rs builds
them by casting i32 tile indices to u8). -/
structure Position where
  file : Nat
  rank : Nat
deriving DecidableEq

/-- Public data of an eliasfl_chess::Game value as the GUI reads and writes
it: the board occupancy map, the side to move, and the per-side promotion
preference array (index 0 white, index 1 black, kept as a pair). -/
structure Game where
  board : Position → Option PieceType
  active_color : Colour
  promotion : PieceType × PieceType

/-- Behaviour of the external rules engine consumed by the GUI: a fresh
game (Game::new), get_possible_moves, make_move (none models Err, some the
mutated game; the returned GameState is discarded by the GUI), and
get_game_state. -/
structure Engine where
  init : Game
  get_possible_moves : Game → Position → Option (List Position)
  make_move : Game → Position → Position → Option Game
  get_game_state : Game → GameState

/-- The controller state owned by AppState in main.rs (the sprite map is
rendering-only and omitted). -/
structure AppState where
  game : Game
  selected_tile : Option Position
  highlighted_tiles : List Position
  white_time : ℚ
  black_time : ℚ

/-- Mouse buttons distinguished by mouse_button_up_event. -/
inductive MouseButton
| left
| right
| middle
deriving DecidableEq

/-- GRID_CELL_SIZE from main.rs: each tile is 45 pixels. -/
def GRID_CELL_SIZE : ℚ := 45

/-- The Rust expression (q as i32) on an f32 value: truncation toward zero
(floor for non-negative values, ceiling for negative ones), saturating at
the i32 bounds. -/
def f32_to_i32 (q : ℚ) : Int :=
  max (-(2 ^ 31)) (min (2 ^ 31 - 1) (if 0 ≤ q then ⌊q⌋ else ⌈q⌉))

/-- The Rust expression (n as u8) on an i32 value: wrapping reduction mod 256. -/
def i32_to_u8 (n : Int) : Nat :=
  (n % 256).toNat

/-- Derives a piece's side; mirrors get_colour_from_piece in main.rs. -/
def get_colour_from_piece : PieceType → Colour
| .king .white => .white
| .queen .white => .white
| .rook .white => .white
| .bishop .white => .white
| .knight .white => .white
| .pawn .white => .white
| _ => .black

/-- The initial controller state built by AppState::new and restored by the
reset branch: fresh engine game, no selection, no highlights, ten minutes
(600 seconds) on each clock. -/
def initState (E : Engine) : AppState :=
  { game := E.init
    selected_tile := none
    highlighted_tiles := []
    white_time := 600
    black_time := 600 }

/-- The per-frame update of main.rs (fn update): while both clocks are
positive, subtract the frame delta from the side-to-move's clock and floor
both clocks at zero; otherwise do nothing. -/
def update (s : AppState) (dt : ℚ) : AppState :=
  if 0 < s.white_time ∧ 0 < s.black_time then
    let s1 :=
      match s.game.active_color with
      | .white => { s with white_time := s.white_time - dt }
      | .black => { s with black_time := s.black_time - dt }
    { s1 with white_time := max s1.white_time 0, black_time := max s1.black_time 0 }
  else s

/-- move_to_tile from main.rs.  Returns early when either clock is zero;
otherwise, if the clicked position is highlighted, submits the move from
the selected tile (selected_tile.unwrap() and make_move(..).unwrap() both
panic on failure, modelled as none) and clears selection and highlights. -/
def move_to_tile (E : Engine) (s : AppState) (p : Position) : Option AppState :=
  if s.white_time = 0 ∨ s.black_time = 0 then some s
  else if p ∈ s.highlighted_tiles then
    match s.selected_tile with
    | none => none
    | some src =>
      match E.make_move s.game src p with
      | none => none
      | some g =>
        some { s with game := g, selected_tile := none, highlighted_tiles := [] }
  else some s

/-- The in-board test and Position construction of mouse_button_up_event
(lines 335-343): tile indices from pixel coordinates by f32-to-i32 casts,
accepted whenever both indices are below 8, file and rank built by wrapping
u8 casts of index plus one. -/
def board_square (x y : ℚ) : Option Position :=
  let xt := f32_to_i32 (x / GRID_CELL_SIZE)
  let yt := f32_to_i32 (y / GRID_CELL_SIZE)
  if xt < 8 ∧ yt < 8 then
    some { file := i32_to_u8 (xt + 1), rank := i32_to_u8 (yt + 1) }
  else none

/-- The selection branch of mouse_button_up_event: remember the clicked
tile and set the highlights to the engine's possible moves for it, the
empty list when the engine reports none. -/
def select_piece (E : Engine) (s : AppState) (p : Position) : AppState :=
  { s with
    selected_tile := some p
    highlighted_tiles :=
      match E.get_possible_moves s.game p with
      | none => []
      | some ms => ms }

/-- Handling of a left click that lands on a board square: select when the
square holds a piece of the side to move, otherwise attempt a move to it. -/
def left_click_board (E : Engine) (s : AppState) (p : Position) : Option AppState :=
  match s.game.board p with
  | some piece =>
    if get_colour_from_piece piece = s.game.active_color then
      some (select_piece E s p)
    else move_to_tile E s p
  | none => move_to_tile E s p

/-- Writes the chosen promotion piece into the active side's slot of the
game's promotion array (index 0 for White, 1 for Black), as the promotion
branch of mouse_button_up_event does. -/
def set_promotion (g : Game) (k : PieceType) : Game :=
  match g.active_color with
  | .white => { g with promotion := (k, g.promotion.2) }
  | .black => { g with promotion := (g.promotion.1, k) }

/-- The promotion-row branch of mouse_button_up_event: columns 8 to 11 pick
Queen, Knight, Rook, Bishop for the active side; any other column is
ignored. -/
def promotion_click (s : AppState) (xt : Int) : AppState :=
  let selected_piece : Option PieceType :=
    if xt = 8 then some (.queen s.game.active_color)
    else if xt = 9 then some (.knight s.game.active_color)
    else if xt = 10 then some (.rook s.game.active_color)
    else if xt = 11 then some (.bishop s.game.active_color)
    else none
  match selected_piece with
  | some k => { s with game := set_promotion s.game k }
  | none => s

/-- mouse_button_up_event from main.rs.  Left clicks dispatch on the pixel
position: board square, reset button (columns 8-9 of row 0), promotion row
(row 3), or nothing; right clicks clear the selection; other buttons are
ignored.  none models a panic inside move_to_tile. -/
def mouse_button_up_event (E : Engine) (s : AppState) (b : MouseButton) (x y : ℚ) :
    Option AppState :=
  match b with
  | .left =>
    let xt := f32_to_i32 (x / GRID_CELL_SIZE)
    let yt := f32_to_i32 (y / GRID_CELL_SIZE)
    match board_square x y with
    | some p => left_click_board E s p
    | none =>
      if xt < 10 ∧ yt < 1 then some (initState E)
      else if yt = 3 then some (promotion_click s xt)
      else some s
  | .right => some { s with selected_tile := none, highlighted_tiles := [] }
  | .middle => some s

/-- Dispatch lemma: a left click whose pixel classifies onto a board square
is handled by left_click_board. -/
lemma mouse_left_board (E : Engine) (s : AppState) (x y : ℚ) (p : Position)
    (h : board_square x y = some p) :
    mouse_button_up_event E s .left x y = left_click_board E s p := by
  rw [mouse_button_up_event.eq_def, h]

/-- Dispatch lemma: a left click whose pixel does not classify onto a board
square is handled by the reset and promotion branches. -/
lemma mouse_left_nonboard (E : Engine) (s : AppState) (x y : ℚ)
    (h : board_square x y = none) :
    mouse_button_up_event E s .left x y =
      (if f32_to_i32 (x / GRID_CELL_SIZE) < 10 ∧ f32_to_i32 (y / GRID_CELL_SIZE) < 1
       then some (initState E)
       else if f32_to_i32 (y / GRID_CELL_SIZE) = 3
       then some (promotion_click s (f32_to_i32 (x / GRID_CELL_SIZE)))
       else some s) := by
  rw [mouse_button_up_event.eq_def, h]

/-- The side named as winner by the checkmate text of fn draw (lines
253-273): when the engine reports CheckMate the text prints active_color
itself. -/
def checkmate_win_display (E : Engine) (s : AppState) : Option Colour :=
  if E.get_game_state s.game = .checkMate then some s.game.active_color else none

/-- The side named as winner by the time-over text of fn draw (lines
301-324): when either clock is zero the text prints the negation of
active_color. -/
def timeout_win_display (s : AppState) : Option Colour :=
  if s.white_time = 0 ∨ s.black_time = 0 then some (colourNot s.game.active_color)
  else none

/-- One observable step of the event loop: a mouse-button-up event that
does not panic, or a frame update with the (always non-negative) timer
delta. -/
inductive Step (E : Engine) : AppState → AppState → Prop
| click {s s' : AppState} (b : MouseButton) (x y : ℚ) :
    mouse_button_up_event E s b x y = some s' → Step E s s'
| tick {s : AppState} (dt : ℚ) : 0 ≤ dt → Step E s (update s dt)

/-- States reachable from the initial state by clicks and ticks (reset is
the reset-button click). -/
inductive Reachable (E : Engine) : AppState → Prop
| init : Reachable E (initState E)
| step {s s' : AppState} : Reachable E s → Step E s s' → Reachable E s'

/-! Concrete engine instances used to evaluate the handlers on explicit
inputs.  The GUI treats the engine as a black box, so any Engine value is a
legitimate test double; testEngine places a single white pawn on square
(1,1) with one possible move to (1,2). -/

/-- Board of the concrete test engine: one white pawn on file 1, rank 1. -/
def startBoard : Position → Option PieceType := fun p =>
  if p = ⟨1, 1⟩ then some (.pawn .white) else none

/-- Concrete engine double: white to move, a pawn on (1,1) whose only
possible move is (1,2); make_move keeps the board and flips the turn. -/
def testEngine : Engine where
  init :=
    { board := startBoard
      active_color := .white
      promotion := (.queen .white, .queen .black) }
  get_possible_moves := fun _ p => if p = ⟨1, 1⟩ then some [⟨1, 2⟩] else none
  make_move := fun g _ _ => some { g with active_color := colourNot g.active_color }
  get_game_state := fun _ => .inProgress

/-- Engine double whose make_move always rejects (returns Err). -/
def rejectEngine : Engine where
  init := testEngine.init
  get_possible_moves := testEngine.get_possible_moves
  make_move := fun _ _ _ => none
  get_game_state := testEngine.get_game_state

/-- Engine double that reports CheckMate. -/
def cmEngine : Engine where
  init := testEngine.init
  get_possible_moves := testEngine.get_possible_moves
  make_move := testEngine.make_move
  get_game_state := fun _ => GameState.checkMate

/-! Evaluation lemmas for the pixel coordinates used on concrete inputs. -/

/-- Tile index of pixel 10: column or row 0. -/
lemma tile_of_10 : f32_to_i32 (10 / GRID_CELL_SIZE) = 0 := by
  norm_num [f32_to_i32, GRID_CELL_SIZE]

/-- Tile index of pixel -10: truncation toward zero also yields 0. -/
lemma tile_of_neg10 : f32_to_i32 ((-10) / GRID_CELL_SIZE) = 0 := by
  norm_num [f32_to_i32, GRID_CELL_SIZE,
    show ((-10 : ℚ) / 45) = -(2 / 9) by norm_num, Int.ceil_neg]

/-- Tile index of pixel 55: column or row 1. -/
lemma tile_of_55 : f32_to_i32 (55 / GRID_CELL_SIZE) = 1 := by
  norm_num [f32_to_i32, GRID_CELL_SIZE]

/-- Tile index of pixel 360: column 8 (first panel column). -/
lemma tile_of_360 : f32_to_i32 (360 / GRID_CELL_SIZE) = 8 := by
  norm_num [f32_to_i32, GRID_CELL_SIZE]

/-- Tile index of pixel 135: row 3 (the promotion row). -/
lemma tile_of_135 : f32_to_i32 (135 / GRID_CELL_SIZE) = 3 := by
  norm_num [f32_to_i32, GRID_CELL_SIZE]

/-- Tile index of pixel 450: column 10. -/
lemma tile_of_450 : f32_to_i32 (450 / GRID_CELL_SIZE) = 10 := by
  norm_num [f32_to_i32, GRID_CELL_SIZE]

/-- Pixel (10, 10) lies on board square (1, 1). -/
lemma board_square_10_10 : board_square 10 10 = some ⟨1, 1⟩ := by
  simp [board_square, tile_of_10, i32_to_u8]

/-- Pixel (-10, 10) is classified onto board square (1, 1) as well. -/
lemma board_square_neg10_10 : board_square (-10) 10 = some ⟨1, 1⟩ := by
  simp [board_square, tile_of_10, tile_of_neg10, i32_to_u8]

/-- Pixel (10, 55) lies on board square (1, 2). -/
lemma board_square_10_55 : board_square 10 55 = some ⟨1, 2⟩ := by
  simp [board_square, tile_of_10, tile_of_55, i32_to_u8]

/-- The state in which the test-engine pawn on (1, 1) has just been
selected. -/
def selState : AppState :=
  { initState testEngine with
    selected_tile := some ⟨1, 1⟩, highlighted_tiles := [⟨1, 2⟩] }

/-- Clicking any pixel that classifies onto square (1, 1) of the fresh
test-engine game selects the pawn there and highlights its one move.  The
same evaluation also holds with the clocks changed, which the hypothesis on
the clock fields expresses. -/
lemma select_click_eval (s : AppState) (x y : ℚ)
    (hs : s.game = testEngine.init) (hbs : board_square x y = some ⟨1, 1⟩) :
    mouse_button_up_event testEngine s .left x y =
      some { s with selected_tile := some ⟨1, 1⟩, highlighted_tiles := [⟨1, 2⟩] } := by
  rw [mouse_left_board _ _ _ _ _ hbs]
  simp [left_click_board, select_piece, hs, testEngine, startBoard,
    get_colour_from_piece]

/-- The frozen state: ticking the whole 600-second allotment away from the
initial test-engine state leaves White (the side to move) at zero. -/
def frozenState : AppState := update (initState testEngine) 600

/-- The frozen state spelled out as a record. -/
lemma frozenState_eq :
    frozenState =
      { game := testEngine.init, selected_tile := none, highlighted_tiles := [],
        white_time := 0, black_time := 600 } := by
  norm_num [frozenState, update, initState, testEngine, startBoard]

/-- The frozen state is reachable: one 600-second tick from the start. -/
lemma frozenState_reachable : Reachable testEngine frozenState :=
  Reachable.step Reachable.init (Step.tick 600 (by norm_num))

/-! Shape lemmas: every state a handler can produce is one of a few record
updates of its input, which drives the reachability invariants. -/

/-- set_promotion only touches the promotion field: the active colour is
kept. -/
lemma set_promotion_active (g : Game) (k : PieceType) :
    (set_promotion g k).active_color = g.active_color := by
  cases h : g.active_color <;> simp [set_promotion, h]

/-- set_promotion only touches the promotion field: the board is kept. -/
lemma set_promotion_board (g : Game) (k : PieceType) :
    (set_promotion g k).board = g.board := by
  cases h : g.active_color <;> simp [set_promotion, h]

/-- A non-panicking move_to_tile call either returns its input unchanged or,
with both clocks nonzero, installs an engine-produced game and clears the
selection and the highlights. -/
lemma move_to_tile_shape (E : Engine) (s : AppState) (p : Position) (s' : AppState)
    (h : move_to_tile E s p = some s') :
    s' = s ∨
      (s.white_time ≠ 0 ∧ s.black_time ≠ 0 ∧
        ∃ g, s' = { s with game := g, selected_tile := none, highlighted_tiles := [] }) := by
  unfold move_to_tile at h
  split at h
  · exact Or.inl (Option.some.inj h).symm
  · next hne =>
    push_neg at hne
    split at h
    · split at h
      · exact absurd h (by simp)
      · split at h
        · exact absurd h (by simp)
        · exact Or.inr ⟨hne.1, hne.2, _, (Option.some.inj h).symm⟩
    · exact Or.inl (Option.some.inj h).symm

/-- promotion_click either leaves the state unchanged or sets the active
side's promotion preference. -/
lemma promotion_click_shape (s : AppState) (xt : Int) :
    promotion_click s xt = s ∨
      ∃ k, promotion_click s xt = { s with game := set_promotion s.game k } := by
  unfold promotion_click
  split_ifs
  all_goals first
    | exact Or.inr ⟨_, rfl⟩
    | exact Or.inl rfl

/-- Any state produced by a non-panicking mouse_button_up_event call is one
of: a selection of some square, the unchanged input, a move with both
clocks nonzero, the reset state, a promotion-preference change, or a
cleared selection. -/
lemma click_shape (E : Engine) (s : AppState) (b : MouseButton) (x y : ℚ) (s' : AppState)
    (h : mouse_button_up_event E s b x y = some s') :
    (∃ p, s' = select_piece E s p) ∨
    s' = s ∨
    (s.white_time ≠ 0 ∧ s.black_time ≠ 0 ∧
      ∃ g, s' = { s with game := g, selected_tile := none, highlighted_tiles := [] }) ∨
    s' = initState E ∨
    (∃ k, s' = { s with game := set_promotion s.game k }) ∨
    s' = { s with selected_tile := none, highlighted_tiles := [] } := by
  cases b with
  | left =>
    cases hbs : board_square x y with
    | some p =>
      rw [mouse_left_board E s x y p hbs] at h
      unfold left_click_board at h
      split at h
      · split at h
        · exact Or.inl ⟨p, (Option.some.inj h).symm⟩
        · exact (move_to_tile_shape E s p s' h).elim (fun h1 => Or.inr (Or.inl h1))
            (fun h1 => Or.inr (Or.inr (Or.inl h1)))
      · exact (move_to_tile_shape E s p s' h).elim (fun h1 => Or.inr (Or.inl h1))
          (fun h1 => Or.inr (Or.inr (Or.inl h1)))
    | none =>
      rw [mouse_left_nonboard E s x y hbs] at h
      split at h
      · exact Or.inr (Or.inr (Or.inr (Or.inl (Option.some.inj h).symm)))
      · split at h
        · rcases promotion_click_shape s (f32_to_i32 (x / GRID_CELL_SIZE)) with h1 | ⟨k, h1⟩
          · exact Or.inr (Or.inl ((Option.some.inj h).symm.trans h1))
          · exact Or.inr (Or.inr (Or.inr (Or.inr (Or.inl
              ⟨k, (Option.some.inj h).symm.trans h1⟩))))
        · exact Or.inr (Or.inl (Option.some.inj h).symm)
  | right =>
    exact Or.inr (Or.inr (Or.inr (Or.inr (Or.inr (Option.some.inj h).symm))))
  | middle =>
    exact Or.inr (Or.inl (Option.some.inj h).symm)

/-- The reachability invariant: clocks never go negative, a clock that has
reached zero belongs to the side to move (its owner was on move when it ran
out and no move is accepted afterwards), and highlights are non-empty only
when a tile is selected. -/
lemma reach_inv (E : Engine) (s : AppState) (hr : Reachable E s) :
    (0 ≤ s.white_time ∧ 0 ≤ s.black_time) ∧
    (s.white_time = 0 → s.game.active_color = .white) ∧
    (s.black_time = 0 → s.game.active_color = .black) ∧
    (s.highlighted_tiles ≠ [] → s.selected_tile ≠ none) := by
  induction hr with
  | init => norm_num [initState]
  | step hr hstep ih =>
    rename_i t t'
    cases hstep with
    | tick dt hdt =>
      by_cases hpos : 0 < t.white_time ∧ 0 < t.black_time
      · cases hac : t.game.active_color
        · have h1 : update t dt =
              { t with white_time := max (t.white_time - dt) 0,
                       black_time := max t.black_time 0 } := by
            simp [update, hac, hpos]
          rw [h1]
          refine ⟨⟨le_max_right _ _, le_max_right _ _⟩, fun _ => hac, ?_, ih.2.2.2⟩
          intro hb0
          have hb0' : max t.black_time 0 = 0 := hb0
          rw [max_eq_left (le_of_lt hpos.2)] at hb0'
          exact absurd hb0' (ne_of_gt hpos.2)
        · have h1 : update t dt =
              { t with white_time := max t.white_time 0,
                       black_time := max (t.black_time - dt) 0 } := by
            simp [update, hac, hpos]
          rw [h1]
          refine ⟨⟨le_max_right _ _, le_max_right _ _⟩, ?_, fun _ => hac, ih.2.2.2⟩
          intro hw0
          have hw0' : max t.white_time 0 = 0 := hw0
          rw [max_eq_left (le_of_lt hpos.1)] at hw0'
          exact absurd hw0' (ne_of_gt hpos.1)
      · have h1 : update t dt = t := by simp [update, hpos]
        rw [h1]
        exact ih
    | click b x y hclick =>
      rcases click_shape E t b x y t' hclick with ⟨p, rfl⟩ | rfl | ⟨hw, hb, g, rfl⟩ |
        rfl | ⟨k, rfl⟩ | rfl
      · exact ⟨ih.1, fun h0 => ih.2.1 h0, fun h0 => ih.2.2.1 h0,
          fun _ => by simp [select_piece]⟩
      · exact ih
      · exact ⟨ih.1, fun h0 => absurd h0 hw, fun h0 => absurd h0 hb, by simp⟩
      · norm_num [initState]
      · exact ⟨ih.1, fun h0 => (set_promotion_active t.game k) ▸ ih.2.1 h0,
          fun h0 => (set_promotion_active t.game k) ▸ ih.2.2.1 h0, ih.2.2.2⟩
      · exact ⟨ih.1, ih.2.1, ih.2.2.1, by simp⟩

/-- C10: a frame tick mutates at most the two clock fields; for every state
and every non-negative delta the game session (hence also both promotion
preferences), the selected square and the highlighted set are unchanged. -/
theorem c10_tick_touches_only_clocks (s : AppState) (dt : ℚ) (hdt : 0 ≤ dt) :
    (update s dt).game = s.game ∧
    (update s dt).selected_tile = s.selected_tile ∧
    (update s dt).highlighted_tiles = s.highlighted_tiles := by
  unfold update
  split
  · cases hac : s.game.active_color <;> simp [hac]
  · exact ⟨rfl, rfl, rfl⟩

/-- C10 witness: a one-second tick on the initial test-engine state. -/
theorem c10_witness :
    (update (initState testEngine) 1).game = (initState testEngine).game ∧
    (update (initState testEngine) 1).selected_tile = (initState testEngine).selected_tile ∧
    (update (initState testEngine) 1).highlighted_tiles =
      (initState testEngine).highlighted_tiles :=
  c10_tick_touches_only_clocks (initState testEngine) 1 zero_le_one

/-- C4: for a tick with non-negative delta starting from non-negative
clocks, neither clock increases, the clock of the side not to move is
unchanged, both clocks stay floored at zero, and once either clock is zero
the tick is the identity and move_to_tile leaves the whole state (in
particular the game session) unchanged. -/
theorem c4_clock_discipline (E : Engine) (s : AppState) (dt : ℚ) (p : Position)
    (hdt : 0 ≤ dt) (hw : 0 ≤ s.white_time) (hb : 0 ≤ s.black_time) :
    ((update s dt).white_time ≤ s.white_time ∧ (update s dt).black_time ≤ s.black_time) ∧
    (s.game.active_color = .white → (update s dt).black_time = s.black_time) ∧
    (s.game.active_color = .black → (update s dt).white_time = s.white_time) ∧
    (0 ≤ (update s dt).white_time ∧ 0 ≤ (update s dt).black_time) ∧
    ((s.white_time = 0 ∨ s.black_time = 0) →
      update s dt = s ∧ move_to_tile E s p = some s) := by
  by_cases hpos : 0 < s.white_time ∧ 0 < s.black_time
  · have hfrozen : ¬(s.white_time = 0 ∨ s.black_time = 0) := by
      rintro (h0 | h0)
      · exact absurd h0 (ne_of_gt hpos.1)
      · exact absurd h0 (ne_of_gt hpos.2)
    cases hac : s.game.active_color
    · have h1 : update s dt =
          { s with white_time := max (s.white_time - dt) 0,
                   black_time := max s.black_time 0 } := by
        simp [update, hac, hpos]
      rw [h1]
      refine ⟨⟨max_le (sub_le_self _ hdt) hw, ?_⟩, fun _ => max_eq_left hb, ?_,
        ⟨le_max_right _ _, le_max_right _ _⟩, fun h0 => absurd h0 hfrozen⟩
      · exact le_of_eq (max_eq_left hb)
      · intro h
        exact absurd h (by simp)
    · have h1 : update s dt =
          { s with white_time := max s.white_time 0,
                   black_time := max (s.black_time - dt) 0 } := by
        simp [update, hac, hpos]
      rw [h1]
      refine ⟨⟨?_, max_le (sub_le_self _ hdt) hb⟩, ?_, fun _ => max_eq_left hw,
        ⟨le_max_right _ _, le_max_right _ _⟩, fun h0 => absurd h0 hfrozen⟩
      · exact le_of_eq (max_eq_left hw)
      · intro h
        exact absurd h (by simp)
  · have h1 : update s dt = s := by simp [update, hpos]
    rw [h1]
    refine ⟨⟨le_rfl, le_rfl⟩, fun _ => rfl, fun _ => rfl, ⟨hw, hb⟩, fun h0 => ⟨rfl, ?_⟩⟩
    unfold move_to_tile
    rw [if_pos h0]

/-- C4 witness: the frozen state (White at zero, Black at 600) with a
one-second tick and the pawn's destination square. -/
theorem c4_witness :
    ((update frozenState 1).white_time ≤ frozenState.white_time ∧
      (update frozenState 1).black_time ≤ frozenState.black_time) ∧
    (frozenState.game.active_color = .white →
      (update frozenState 1).black_time = frozenState.black_time) ∧
    (frozenState.game.active_color = .black →
      (update frozenState 1).white_time = frozenState.white_time) ∧
    (0 ≤ (update frozenState 1).white_time ∧ 0 ≤ (update frozenState 1).black_time) ∧
    ((frozenState.white_time = 0 ∨ frozenState.black_time = 0) →
      update frozenState 1 = frozenState ∧
        move_to_tile testEngine frozenState ⟨1, 2⟩ = some frozenState) :=
  c4_clock_discipline testEngine frozenState 1 ⟨1, 2⟩ zero_le_one
    (by rw [frozenState_eq]) (by rw [frozenState_eq]; norm_num)

/-- C5: in every reachable state in which exactly one clock has reached
zero, the time-over text of fn draw names the side whose clock is not zero
as the winner (the display reads no engine status, so this holds regardless
of it). -/
theorem c5_timeout_display (E : Engine) (s : AppState) (hr : Reachable E s) :
    (s.white_time = 0 → s.black_time ≠ 0 → timeout_win_display s = some Colour.black) ∧
    (s.black_time = 0 → s.white_time ≠ 0 → timeout_win_display s = some Colour.white) := by
  constructor
  · intro hw0 _
    have hac := (reach_inv E s hr).2.1 hw0
    unfold timeout_win_display
    rw [if_pos (Or.inl hw0), hac]
    rfl
  · intro hb0 _
    have hac := (reach_inv E s hr).2.2.1 hb0
    unfold timeout_win_display
    rw [if_pos (Or.inr hb0), hac]
    rfl

/-- C5 witness: in the reachable frozen state (White's clock at zero,
Black's at 600) the time-over text names Black. -/
theorem c5_witness : timeout_win_display frozenState = some Colour.black :=
  (c5_timeout_display testEngine frozenState frozenState_reachable).1
    (by rw [frozenState_eq]) (by rw [frozenState_eq]; norm_num)

/-- C6: a left click on a board square holding a piece of the side to move
selects exactly that square and sets the highlights to exactly the engine's
possible-move set for it, the empty set when the engine reports none. -/
theorem c6_selection_exact (E : Engine) (s : AppState) (x y : ℚ)
    (p : Position) (piece : PieceType)
    (hbs : board_square x y = some p)
    (hocc : s.game.board p = some piece)
    (hcol : get_colour_from_piece piece = s.game.active_color) :
    mouse_button_up_event E s .left x y =
      some { s with selected_tile := some p,
                    highlighted_tiles := (E.get_possible_moves s.game p).getD [] } := by
  rw [mouse_left_board E s x y p hbs]
  unfold left_click_board
  rw [hocc]
  dsimp only
  rw [if_pos hcol]
  unfold select_piece
  cases hm : E.get_possible_moves s.game p <;> simp [hm]

/-- C6 witness: clicking pixel (10, 10) on the fresh test-engine game
selects the white pawn on (1, 1) and highlights the engine's move list. -/
theorem c6_witness :
    mouse_button_up_event testEngine (initState testEngine) .left 10 10 =
      some { initState testEngine with
              selected_tile := some ⟨1, 1⟩,
              highlighted_tiles :=
                (testEngine.get_possible_moves (initState testEngine).game
                  ⟨1, 1⟩).getD [] } :=
  c6_selection_exact testEngine (initState testEngine) 10 10 ⟨1, 1⟩ (.pawn .white)
    board_square_10_10 (by simp [initState, testEngine, startBoard]) rfl

/-- C7: in every state reachable from the initial state by clicks and
ticks, a non-empty highlighted set implies that a tile is selected. -/
theorem c7_highlight_needs_selection (E : Engine) (s : AppState) (hr : Reachable E s)
    (hne : s.highlighted_tiles ≠ []) : s.selected_tile ≠ none :=
  (reach_inv E s hr).2.2.2 hne

/-- C7 witness: the reachable post-selection state has a non-empty
highlight list, so the invariant applies and yields its selection. -/
theorem c7_witness : selState.selected_tile ≠ none :=
  c7_highlight_needs_selection testEngine selState
    (Reachable.step Reachable.init
      (Step.click .left 10 10 (select_click_eval (initState testEngine) 10 10 rfl
        board_square_10_10)))
    (by simp [selState])

/-- The claim-side slot mapping of C9: slots 0 to 3 name Queen, Knight,
Rook, Bishop for the given side. -/
def slot_kind (i : Nat) (c : Colour) : PieceType :=
  if i = 0 then .queen c
  else if i = 1 then .knight c
  else if i = 2 then .rook c
  else .bishop c

/-- C9: a left click on promotion slot i (column 8 + i of row 3) sets the
side-to-move's promotion preference to Queen, Knight, Rook, Bishop for
i = 0, 1, 2, 3, and leaves the selected tile, the highlighted set, the
board occupancy and the side to move unchanged. -/
theorem c9_promotion_slot (E : Engine) (s : AppState) (x y : ℚ) (i : Nat)
    (hi : i < 4)
    (hx : f32_to_i32 (x / GRID_CELL_SIZE) = 8 + i)
    (hy : f32_to_i32 (y / GRID_CELL_SIZE) = 3) :
    mouse_button_up_event E s .left x y =
      some { s with game := set_promotion s.game (slot_kind i s.game.active_color) } ∧
    (set_promotion s.game (slot_kind i s.game.active_color)).board = s.game.board ∧
    (set_promotion s.game (slot_kind i s.game.active_color)).active_color =
      s.game.active_color := by
  refine ⟨?_, set_promotion_board _ _, set_promotion_active _ _⟩
  have hbs : board_square x y = none := by
    unfold board_square
    simp only [hx, hy]
    rw [if_neg]
    rintro ⟨h1, -⟩
    omega
  rw [mouse_left_nonboard E s x y hbs, hx, hy]
  rw [if_neg (by rintro ⟨-, h⟩; omega), if_pos rfl]
  interval_cases i <;> simp [promotion_click, slot_kind]

/-- C9 witness: pixel (360, 135) is slot 0, setting the active side's
preference to a Queen. -/
theorem c9_witness :
    mouse_button_up_event testEngine (initState testEngine) .left 360 135 =
      some { initState testEngine with
              game := set_promotion (initState testEngine).game
                (slot_kind 0 (initState testEngine).game.active_color) } ∧
    (set_promotion (initState testEngine).game
        (slot_kind 0 (initState testEngine).game.active_color)).board =
      (initState testEngine).game.board ∧
    (set_promotion (initState testEngine).game
        (slot_kind 0 (initState testEngine).game.active_color)).active_color =
      (initState testEngine).game.active_color :=
  c9_promotion_slot testEngine (initState testEngine) 360 135 0 (by norm_num)
    (by rw [tile_of_360]; norm_num) tile_of_135

/-- What a board-square click may do while a clock is at zero: it must not
panic, and it must leave the game session and both clocks unchanged. -/
def time_frozen_click (s : AppState) (r : Option AppState) : Prop :=
  match r with
  | some s' =>
      s'.game = s.game ∧ s'.white_time = s.white_time ∧ s'.black_time = s.black_time
  | none => False

/-- C3 (amended): when either clock has reached zero, a left click that
classifies onto a board square never submits a move — the game session and
both clocks are unchanged — although selection and highlights may still
change when the square holds a piece of the side to move. -/
theorem c3_frozen_no_move (E : Engine) (s : AppState) (x y : ℚ) (p : Position)
    (ht : s.white_time = 0 ∨ s.black_time = 0)
    (hbs : board_square x y = some p) :
    time_frozen_click s (mouse_button_up_event E s .left x y) := by
  rw [mouse_left_board E s x y p hbs]
  unfold left_click_board
  cases hocc : s.game.board p with
  | some piece =>
    dsimp only
    split
    · simp [time_frozen_click, select_piece]
    · unfold move_to_tile
      rw [if_pos ht]
      simp [time_frozen_click]
  | none =>
    dsimp only
    unfold move_to_tile
    rw [if_pos ht]
    simp [time_frozen_click]

/-- C3 witness: in the frozen state a click on the pawn square leaves game
and clocks unchanged. -/
theorem c3_witness :
    time_frozen_click frozenState
      (mouse_button_up_event testEngine frozenState .left 10 10) :=
  c3_frozen_no_move testEngine frozenState 10 10 ⟨1, 1⟩
    (Or.inl (by rw [frozenState_eq])) board_square_10_10

/-- C3 counterexample: in the reachable frozen state (White's clock at
zero) a left click on the white pawn's square is not a no-op — it selects
the square and installs highlights, refuting the claim that such a click
leaves selection and highlights unchanged. -/
theorem c3_counterexample :
    Reachable testEngine frozenState ∧
    frozenState.white_time = 0 ∧
    frozenState.selected_tile = none ∧
    mouse_button_up_event testEngine frozenState .left 10 10 =
      some { frozenState with
             selected_tile := some ⟨1, 1⟩, highlighted_tiles := [⟨1, 2⟩] } :=
  ⟨frozenState_reachable, by rw [frozenState_eq], by rw [frozenState_eq],
    select_click_eval frozenState 10 10 (by rw [frozenState_eq]) board_square_10_10⟩

/-- What a click outside the board viewport may do: it must not panic, it
must not install a selection (the selected tile stays or is cleared), and
it must not submit a move (board occupancy and side to move are unchanged,
or the session is the fresh reset session). -/
def outside_click_safe (E : Engine) (s : AppState) (r : Option AppState) : Prop :=
  match r with
  | some s' =>
      (s'.selected_tile = s.selected_tile ∨ s'.selected_tile = none) ∧
      ((s'.game.board = s.game.board ∧ s'.game.active_color = s.game.active_color) ∨
        s'.game = E.init)
  | none => False

/-- A pixel coordinate at or beyond 360 with a non-negative offset yields a
tile index of at least 8. -/
lemma tile_ge_8 (q : ℚ) (h0 : 0 ≤ q) (h8 : 360 ≤ q) :
    8 ≤ f32_to_i32 (q / GRID_CELL_SIZE) := by
  unfold f32_to_i32 GRID_CELL_SIZE
  have h45 : (0 : ℚ) < 45 := by norm_num
  have hq : (8 : ℚ) ≤ q / 45 := by
    rw [le_div_iff h45]
    linarith
  rw [if_pos (by positivity)]
  have hfl : (8 : Int) ≤ ⌊q / 45⌋ := Int.le_floor.mpr (by exact_mod_cast hq)
  exact le_trans (le_min (by norm_num) hfl) (le_max_right _ _)

/-- C8 (amended): every pixel with non-negative coordinates lying outside
the board viewport (x at or beyond 360, or y at or beyond 360) classifies
to no board square, and a left click there neither selects a piece nor
submits a move. -/
theorem c8_outside_never_board (E : Engine) (s : AppState) (x y : ℚ)
    (hx : 0 ≤ x) (hy : 0 ≤ y) (hout : 360 ≤ x ∨ 360 ≤ y) :
    board_square x y = none ∧
    outside_click_safe E s (mouse_button_up_event E s .left x y) := by
  have hbs : board_square x y = none := by
    unfold board_square
    rw [if_neg]
    rintro ⟨h1, h2⟩
    rcases hout with h8 | h8
    · exact absurd h1 (not_lt.mpr (tile_ge_8 x hx h8))
    · exact absurd h2 (not_lt.mpr (tile_ge_8 y hy h8))
  refine ⟨hbs, ?_⟩
  rw [mouse_left_nonboard E s x y hbs]
  split
  · simp [outside_click_safe, initState]
  · split
    · rcases promotion_click_shape s (f32_to_i32 (x / GRID_CELL_SIZE)) with h1 | ⟨k, h1⟩
      · rw [h1]
        simp [outside_click_safe]
      · rw [h1]
        simp [outside_click_safe, set_promotion_board, set_promotion_active]
    · simp [outside_click_safe]

/-- C8 witness: pixel (450, 10) lies in the side panel; the click is
classified off the board and neither selects nor moves. -/
theorem c8_witness :
    board_square 450 10 = none ∧
    outside_click_safe testEngine (initState testEngine)
      (mouse_button_up_event testEngine (initState testEngine) .left 450 10) :=
  c8_outside_never_board testEngine (initState testEngine) 450 10 (by norm_num)
    (by norm_num) (Or.inl (by norm_num))

/-- C8 counterexample: pixel (-10, 10) lies outside the board viewport
(negative x), yet the Rust float-to-int cast truncates -10/45 toward zero
to tile 0, so the click classifies onto board square (1, 1) and selects the
white pawn there, refuting the claim for negative coordinates. -/
theorem c8_counterexample :
    (-10 : ℚ) < 0 ∧
    board_square (-10) 10 = some ⟨1, 1⟩ ∧
    mouse_button_up_event testEngine (initState testEngine) .left (-10) 10 =
      some { initState testEngine with
             selected_tile := some ⟨1, 1⟩, highlighted_tiles := [⟨1, 2⟩] } :=
  ⟨by norm_num, board_square_neg10_10,
    select_click_eval (initState testEngine) (-10) 10 rfl board_square_neg10_10⟩

/-- C1: in a reachable state whose engine-reported status is CheckMate with
White to move — White is the checkmated loser — the win text of fn draw
nevertheless names White, the side to move itself, not the other side as
the claim requires. -/
theorem c1_checkmate_display_names_loser :
    Reachable cmEngine (initState cmEngine) ∧
    cmEngine.get_game_state (initState cmEngine).game = GameState.checkMate ∧
    (initState cmEngine).game.active_color = Colour.white ∧
    checkmate_win_display cmEngine (initState cmEngine) = some Colour.white := by
  refine ⟨Reachable.init, rfl, rfl, ?_⟩
  unfold checkmate_win_display
  rw [if_pos (show cmEngine.get_game_state (initState cmEngine).game =
    GameState.checkMate from rfl)]
  rfl

/-- The reachable state of the reject-engine session in which the pawn on
(1, 1) is selected with its destination (1, 2) highlighted. -/
def rejState : AppState :=
  { initState rejectEngine with
    selected_tile := some ⟨1, 1⟩, highlighted_tiles := [⟨1, 2⟩] }

/-- Selecting the pawn in the fresh reject-engine session yields rejState. -/
lemma reject_select_eval :
    mouse_button_up_event rejectEngine (initState rejectEngine) .left 10 10 =
      some rejState := by
  rw [mouse_left_board _ _ _ _ _ board_square_10_10]
  simp [left_click_board, select_piece, rejState, initState, rejectEngine, testEngine,
    startBoard, get_colour_from_piece]

/-- C2: from the reachable state rejState, clicking the highlighted
destination (1, 2) while the engine rejects the move makes the handler
panic (the make_move(..).unwrap() of move_to_tile, modelled as none), so
the rejection is not absorbed and the program crashes, contradicting the
claim. -/
theorem c2_rejection_panics :
    Reachable rejectEngine rejState ∧
    rejectEngine.make_move rejState.game ⟨1, 1⟩ ⟨1, 2⟩ = none ∧
    mouse_button_up_event rejectEngine rejState .left 10 55 = none := by
  refine ⟨Reachable.step Reachable.init (Step.click .left 10 10 reject_select_eval),
    rfl, ?_⟩
  rw [mouse_left_board _ _ _ _ _ board_square_10_55]
  norm_num [left_click_board, move_to_tile, rejState, initState, rejectEngine,
    testEngine, startBoard]

end ChessGui
